import Mathlib

/-!
Verification development for the devys PTY session bridge.

The repository contains two historical prototypes of the sidecar
(src/pty-sidecar/src/main.rs, the single-session variant, and
src/pty-sidecar/src/main_complex.rs, the multi-session variant with
metrics) together with the client side bridge
(src/terminal-ui/src/pty_bridge.rs).  The definitions below are shallow
embeddings of the session lifecycle, the control-message dispatch loops
of both sidecar variants, the latency tracker and the client latency
history, transcribed from the Rust source.  Where a function is invoked
in the source but its body is absent from the repository
(cleanup_stale_sessions), the definition is modelled from the spec and
says so in its doc comment.
-/

namespace PtySidecar

/-- Control message protocol, `enum ControlMessage` shared verbatim by
main.rs and main_complex.rs: tagged variants resize, ping, pong,
session, error, metrics. -/
inductive ControlMessage where
  | Resize (rows cols : Nat)
  | Ping
  | Pong
  | Session (id : String)
  | Error (message : String)
  | Metrics
deriving DecidableEq, Repr

/-- An outbound frame on the websocket.  In main_complex.rs every
response produced inside the relay loop is pushed onto the byte channel
`tx` (an UnboundedSender of byte vectors) and re-emitted by the
channel-to-websocket task wrapped in Message::Binary, so a control
message answered from the loop reaches the client as a binary frame
(`binaryControl`), unlike the Session and Error frames sent directly on
the socket as text (`text`).  `binaryData` is relayed PTY output,
`binaryMetrics` the serialized MetricsResponse, `wsPong` a
websocket-level pong. -/
inductive Frame where
  | text (m : ControlMessage)
  | binaryControl (m : ControlMessage)
  | binaryData (bytes : List Nat)
  | binaryMetrics
  | wsPong
deriving DecidableEq, Repr

/-- One incoming websocket event observed by the relay loop, together
with the outcome of the PTY operation it triggers (the embedding makes
the I/O environment explicit).  `ctrl` is a text frame that parsed to a
control message; `resizeOk` is the result of the PTY resize call and is
only consulted when the message is Resize.  `malformed` is a text frame
that failed to parse.  `binary` is a client input frame with the
outcomes of the PTY write and flush.  `wsPing` is a websocket-level
ping, `closeFrame` a close frame, `wsError` a receive error. -/
inductive WsEvent where
  | ctrl (m : ControlMessage) (resizeOk : Bool)
  | malformed
  | binary (writeOk flushOk : Bool)
  | wsPing
  | closeFrame
  | wsError
deriving DecidableEq, Repr

/-- Mutable state of one relay loop: current PTY geometry and the
frames sent to the client from inside the loop, in order. -/
structure LoopState where
  rows : Nat
  cols : Nat
  out : List Frame
deriving DecidableEq, Repr

/-- Geometry at session creation: PtySession::new opens the PTY with
rows 24, cols 80. -/
def initLoop : LoopState := { rows := 24, cols := 80, out := [] }

/-- One iteration of the relay loop of main_complex.rs
(handle_connection, the `while let Some(msg) = ws_receiver.next()`
match).  Returns the updated state and whether the loop continues.
Resize: on success the PTY geometry is updated, on failure the error is
only logged and the loop continues.  Ping: an encoded Pong is pushed
onto the byte channel.  Metrics: a MetricsResponse is pushed onto the
byte channel.  Any other parsed message is logged at debug level and
ignored; a malformed text frame is logged as a warning and ignored.
Binary input: a failed PTY write breaks the loop, a failed flush is
only logged.  A websocket ping is answered on the byte channel; close
frames and receive errors break the loop. -/
def complexStep (s : LoopState) (e : WsEvent) : LoopState × Bool :=
  match e with
  | .ctrl (.Resize r c) resizeOk =>
      if resizeOk then ({ s with rows := r, cols := c }, true)
      else (s, true)
  | .ctrl .Ping _ => ({ s with out := s.out ++ [.binaryControl .Pong] }, true)
  | .ctrl .Metrics _ => ({ s with out := s.out ++ [.binaryMetrics] }, true)
  | .ctrl _ _ => (s, true)
  | .malformed => (s, true)
  | .binary writeOk _flushOk =>
      if writeOk then (s, true) else (s, false)
  | .wsPing => ({ s with out := s.out ++ [.wsPong] }, true)
  | .closeFrame => (s, false)
  | .wsError => (s, false)

/-- One iteration of the relay loop of main.rs (handle_connection, the
`while let Some(msg) = ws_read.next()` match).  Binary input: a failed
PTY write breaks the loop and a failed flush propagates with `?`,
ending the handler.  A text frame is parsed and matched against Resize
only; a resize failure propagates with `?`, ending the handler and the
session, and every other control message, Ping included, falls to the
catch-all arm and is ignored with no response.  Close frames and
receive errors break the loop; all remaining websocket messages fall to
the final catch-all and are ignored. -/
def mainStep (s : LoopState) (e : WsEvent) : LoopState × Bool :=
  match e with
  | .ctrl (.Resize r c) resizeOk =>
      if resizeOk then ({ s with rows := r, cols := c }, true)
      else (s, false)
  | .ctrl _ _ => (s, true)
  | .malformed => (s, true)
  | .binary writeOk flushOk =>
      if writeOk then (if flushOk then (s, true) else (s, false))
      else (s, false)
  | .wsPing => (s, true)
  | .closeFrame => (s, false)
  | .wsError => (s, false)

/-- Run a relay loop over the incoming events, stopping at the first
iteration that ends the loop.  Returns the final state and true when
every event was consumed with the loop still running. -/
def runLoop (step : LoopState → WsEvent → LoopState × Bool) :
    LoopState → List WsEvent → LoopState × Bool
  | s, [] => (s, true)
  | s, e :: es =>
      match step s e with
      | (s1, true) => runLoop step s1 es
      | (s1, false) => (s1, false)

/-- Result of one connection handler: the frames written to the client
socket in order (the initial text frames followed by the loop output),
and whether a registry entry was created for the connection. -/
structure ConnResult where
  frames : List Frame
  registered : Bool
deriving DecidableEq, Repr

/-- handle_connection of main_complex.rs after a successful websocket
handshake.  `writable` is whether sends on the socket succeed;
`spawnResult` is the outcome of PtySession::new.  On spawn failure the
handler serializes Error with message "Failed to create PTY: e" and
sends it as a text frame (the send propagates with `?`, so nothing is
delivered when the socket is not writable), then returns; on success it
sends the Session text frame first and then runs the relay loop.  The
function receives the shared `sessions` map but performs no insert on
it anywhere, so `registered` is false on every path; this transcribes
the absence of any registry operation in the source. -/
def handle_connection_complex (writable : Bool)
    (spawnResult : Except String String) (events : List WsEvent) :
    ConnResult :=
  match spawnResult with
  | .error e =>
      { frames := if writable
          then [.text (.Error ("Failed to create PTY: " ++ e))] else [],
        registered := false }
  | .ok id =>
      if writable then
        { frames := .text (.Session id) :: (runLoop complexStep initLoop events).1.out,
          registered := false }
      else { frames := [], registered := false }

/-- handle_connection of main.rs after a successful websocket
handshake.  On spawn failure the handler logs the error and returns Err
immediately: no Error frame is written to the socket.  On success it
sends the Session text frame and runs the relay loop.  main.rs keeps no
session registry at all, so `registered` is false on every path. -/
def handle_connection_main (writable : Bool)
    (spawnResult : Except String String) (events : List WsEvent) :
    ConnResult :=
  match spawnResult with
  | .error _ => { frames := [], registered := false }
  | .ok id =>
      if writable then
        { frames := .text (.Session id) :: (runLoop mainStep initLoop events).1.out,
          registered := false }
      else { frames := [], registered := false }

/-- Observable lifecycle state of one session: whether it has reached
the terminated state, how many kill signals its child has received, and
whether it still holds a registry entry (with the count of removals). -/
structure SessionLife where
  terminated : Bool
  killCount : Nat
  registered : Bool
  removeCount : Nat
deriving DecidableEq, Repr

/-- A freshly created, registered, live session. -/
def freshLife : SessionLife :=
  { terminated := false, killCount := 0, registered := true, removeCount := 0 }

/-- Teardown of one session.  The kill is `PtySession::drop` in main.rs
(`let _ = self.child.kill()`), which Rust runs at most once on a value;
the guard on `terminated` transcribes that at-most-once guarantee, so a
second teardown of an already terminated session is a no-op.  Registry
removal is Modelled from the spec: the registry-removal half of
teardown (and cleanup_stale_sessions, its only non-drop caller) is
absent from src, and the spec prescribes that teardown removes the
registry entry exactly once. -/
def teardown (s : SessionLife) : SessionLife :=
  if s.terminated then s
  else
    { terminated := true,
      killCount := s.killCount + 1,
      registered := false,
      removeCount := if s.registered then s.removeCount + 1 else s.removeCount }

/-- The five conditions that can initiate teardown of a session. -/
inductive TeardownTrigger where
  | connClose
  | ptyEof
  | ioError
  | reaperEviction
  | explicitKill
deriving DecidableEq, Repr

/-- Every trigger initiates the same teardown path: in main.rs the
relay loop breaks (connection close, receive error, PTY write error) or
the reader task ends (PTY EOF, read error), after which the one
PtySession value is dropped, killing the child. -/
def triggerTeardown (_t : TeardownTrigger) (s : SessionLife) : SessionLife :=
  teardown s

/-- One registry entry, `struct SessionState` of main_complex.rs minus
the PTY pair: creation and last-activity instants (modelled as Nat
ticks) plus the lifecycle state of the underlying session. -/
structure RegistryEntry where
  created_at : Nat
  last_activity : Nat
  life : SessionLife
deriving DecidableEq, Repr

/-- The registry: session id to entry, the `Sessions` DashMap. -/
abbrev Registry := List (Nat × RegistryEntry)

/-- The reaper interval in seconds, `Duration::from_secs(60)` in main
of main_complex.rs. -/
def reaperIntervalSecs : Nat := 60

/-- Modelled from the spec: cleanup_stale_sessions is invoked from main
of main_complex.rs on every reaper tick but its definition is missing
from src.  Per the spec, each registry entry whose elapsed time since
last_activity exceeds the staleness threshold is torn down via the same
teardown path as any other termination (child killed, entry removed),
and every other entry is left untouched.  Returns the surviving
registry and the lifecycle states of the evicted sessions after
teardown. -/
def cleanup_stale_sessions (now threshold : Nat) (reg : Registry) :
    Registry × List SessionLife :=
  (reg.filter (fun e => decide (now - e.2.last_activity ≤ threshold)),
   (reg.filter (fun e => decide (threshold < now - e.2.last_activity))).map
     (fun e => teardown e.2.life))

/-- Latency tracker of main_complex.rs: retained round-trip samples
(durations in nanoseconds) and the running count of high-latency
samples. -/
structure LatencyTracker where
  measurements : List Nat
  high_latency_count : Nat
deriving DecidableEq, Repr

/-- LatencyTracker::new: empty history, zero high-latency count. -/
def LatencyTracker.new : LatencyTracker :=
  { measurements := [], high_latency_count := 0 }

/-- Duration::as_millis on a duration of `nanos` nanoseconds. -/
def durMillis (nanos : Nat) : Nat := nanos / 1000000

/-- LatencyTracker::record: the sample is pushed only while fewer than
1000 samples are retained (there is no eviction), and the high-latency
counter increments whenever the duration exceeds 50 ms, strictly. -/
def LatencyTracker.record (t : LatencyTracker) (d : Nat) : LatencyTracker :=
  { measurements :=
      if t.measurements.length < 1000 then t.measurements ++ [d]
      else t.measurements,
    high_latency_count :=
      if 50 < durMillis d then t.high_latency_count + 1
      else t.high_latency_count }

/-- The aggregates logged by LatencyTracker::report, in milliseconds as
printed by the info! line. -/
structure LatencyReport where
  avg : Nat
  min : Nat
  max : Nat
  high : Nat
deriving DecidableEq, Repr

/-- LatencyTracker::report: with no retained samples it returns early
(a no-op); otherwise it logs the average (Duration sum divided by the
sample count, truncating), minimum and maximum of the retained samples
and the high-latency count, each duration printed with as_millis.  The
embedding returns the logged aggregates, none for the no-op. -/
def LatencyTracker.report (t : LatencyTracker) : Option LatencyReport :=
  if t.measurements.isEmpty then none
  else
    some { avg := durMillis (t.measurements.sum / t.measurements.length),
           min := durMillis ((t.measurements.min?).getD 0),
           max := durMillis ((t.measurements.max?).getD 0),
           high := t.high_latency_count }

end PtySidecar

namespace PtyBridge

/-- The push performed on the latency history of PTYBridge
(pty_bridge.rs): the sample is appended, then if more than 100
measurements are held the oldest (index 0) is removed.  Samples are f64
milliseconds in the source, modelled as rationals. -/
def pushLatency (h : List ℚ) (x : ℚ) : List ℚ :=
  let h1 := h ++ [x]
  if 100 < h1.length then h1.drop 1 else h1

/-- PTYBridge::measure_latency on a connected bridge: a ping message is
sent, and the sample recorded into the history (and returned) is the
elapsed time when the send completes (`start.elapsed()` right after the
send).  The function does not wait for a pong; `sendElapsedMs` is the
measured send duration.  The data field of the ping carries
`start.elapsed().as_nanos()` taken while building the message, before
the send. -/
def measure_latency (history : List ℚ) (sendElapsedMs : ℚ) :
    List ℚ × ℚ :=
  (pushLatency history sendElapsedMs, sendElapsedMs)

/-- The sample the spec describes, for comparison with
`measure_latency`: the elapsed time from sending the Ping to observing
the matching Pong for the same session, i.e. the round-trip duration. -/
def claimedRoundTripSample (_sendElapsedMs roundTripMs : ℚ) : ℚ :=
  roundTripMs

/-- The Pong arm of PTYBridge::handle_message: the data field of the
pong is parsed as nanoseconds and the recorded sample is the current
unix time minus that value, in milliseconds; no session-id matching is
performed before recording. -/
def handlePongSample (nowUnixNanos pingDataNanos : Nat) : ℚ :=
  ((nowUnixNanos - pingDataNanos : Nat) : ℚ) / 1000000

/-- PTYBridge::get_average_latency: 0.0 on an empty history, otherwise
the sum of the retained samples divided by their count. -/
def get_average_latency (history : List ℚ) : ℚ :=
  if history.isEmpty then 0 else history.sum / (history.length : ℚ)

end PtyBridge

namespace PtySidecar

/-- While the tracker has held at most 1000 samples in total, record
appends every sample in arrival order. -/
theorem foldl_record_measurements (ds : List Nat) :
    ∀ t : LatencyTracker, t.measurements.length + ds.length ≤ 1000 →
      (ds.foldl LatencyTracker.record t).measurements = t.measurements ++ ds := by
  induction ds with
  | nil => intro t _; simp
  | cons d ds ih =>
      intro t h
      have hlen : t.measurements.length + ds.length + 1 ≤ 1000 := by
        simp only [List.length_cons] at h; omega
      have hlt : t.measurements.length < 1000 := by omega
      have hrec : (t.record d).measurements = t.measurements ++ [d] := by
        simp [LatencyTracker.record, hlt]
      have ih2 := ih (t.record d) (by rw [hrec]; simp; omega)
      calc ((d :: ds).foldl LatencyTracker.record t).measurements
          = (ds.foldl LatencyTracker.record (t.record d)).measurements := by rfl
        _ = (t.record d).measurements ++ ds := ih2
        _ = t.measurements ++ d :: ds := by rw [hrec]; simp

/-- Once 1000 samples are retained, record leaves the history
unchanged: the new sample is dropped and nothing is evicted. -/
theorem record_at_capacity (t : LatencyTracker) (d : Nat)
    (h : 1000 ≤ t.measurements.length) :
    (t.record d).measurements = t.measurements := by
  simp [LatencyTracker.record, Nat.not_lt.mpr h]

/-- Recording one 10 ms sample 1000 times from a fresh tracker fills
the history with exactly those samples. -/
theorem replicate_foldl_full :
    ((List.replicate 1000 10000000).foldl LatencyTracker.record
        LatencyTracker.new).measurements = List.replicate 1000 10000000 := by
  have h := foldl_record_measurements (List.replicate 1000 10000000)
    LatencyTracker.new
    (by simp only [LatencyTracker.new, List.length_nil, List.length_replicate]; omega)
  simpa only [LatencyTracker.new, List.nil_append] using h

end PtySidecar

namespace PtyBridge

/-- One push on the client latency history, written as a drop of the
appended list: nothing is dropped below capacity, and exactly the
oldest sample is dropped at capacity. -/
theorem pushLatency_drop (h : List ℚ) (x : ℚ) (hle : h.length ≤ 100) :
    pushLatency h x = (h ++ [x]).drop ((h ++ [x]).length - 100) := by
  unfold pushLatency
  by_cases hc : 100 < (h ++ [x]).length
  · rw [if_pos hc]
    have h1 : (h ++ [x]).length - 100 = 1 := by
      simp only [List.length_append, List.length_singleton] at hc ⊢; omega
    rw [h1]
  · rw [if_neg hc]
    have h0 : (h ++ [x]).length - 100 = 0 := by
      simp only [List.length_append, List.length_singleton] at hc ⊢; omega
    rw [h0, List.drop_zero]

/-- Pushing onto a history within capacity keeps it within capacity. -/
theorem pushLatency_length_le (h : List ℚ) (x : ℚ) (hle : h.length ≤ 100) :
    (pushLatency h x).length ≤ 100 := by
  rw [pushLatency_drop h x hle]
  simp only [List.length_drop, List.length_append, List.length_singleton]
  omega

set_option maxRecDepth 4000 in
/-- Folding pushes over an event stream starting from a history within
capacity retains exactly the most recent samples: the result is the
suffix of the concatenated stream that fits in the capacity of 100. -/
theorem foldl_push_suffix (xs : List ℚ) :
    ∀ h : List ℚ, h.length ≤ 100 →
      xs.foldl pushLatency h = (h ++ xs).drop ((h ++ xs).length - 100) := by
  induction xs with
  | nil =>
      intro h hle
      have h0 : (h ++ ([] : List ℚ)).length - 100 = 0 := by simp; omega
      rw [List.foldl_nil, h0, List.drop_zero, List.append_nil]
  | cons x xs ih =>
      intro h hle
      have step : (x :: xs).foldl pushLatency h = xs.foldl pushLatency (pushLatency h x) := rfl
      rw [step, ih (pushLatency h x) (pushLatency_length_le h x hle)]
      rw [pushLatency_drop h x hle]
      have hk : (h ++ [x]).length - 100 ≤ (h ++ [x]).length := Nat.sub_le _ _
      rw [← List.drop_append_of_le_length hk, List.drop_drop]
      have hassoc : (h ++ [x]) ++ xs = h ++ x :: xs := by simp
      rw [hassoc]
      congr 1
      have l1 : (h ++ [x]).length = h.length + 1 := by simp
      have l2 : (h ++ x :: xs).length = h.length + (xs.length + 1) := by simp
      have l3 : (List.drop ((h ++ [x]).length - 100) (h ++ x :: xs)).length
          = (h ++ x :: xs).length - ((h ++ [x]).length - 100) := List.length_drop _ _
      omega

end PtyBridge

open PtySidecar PtyBridge

/-- C1: whichever of the five triggers (connection close, PTY EOF, I/O
error, reaper eviction, explicit kill) initiates teardown, the same
teardown path runs; on a live registered session it kills the child
exactly once and removes the registry entry exactly once, and a second
teardown of an already terminated session is a no-op — no duplicate
kill, no further state change. -/
theorem teardown_exactly_once_and_idempotent :
    (∀ (t : TeardownTrigger) (s : SessionLife), triggerTeardown t s = teardown s) ∧
    (∀ t : TeardownTrigger,
      (triggerTeardown t freshLife).terminated = true ∧
      (triggerTeardown t freshLife).killCount = 1 ∧
      (triggerTeardown t freshLife).removeCount = 1 ∧
      (triggerTeardown t freshLife).registered = false) ∧
    (∀ s : SessionLife, teardown (teardown s) = teardown s) := by
  refine ⟨fun t s => rfl, fun t => by simp [triggerTeardown, teardown, freshLife],
    fun s => ?_⟩
  by_cases hterm : s.terminated = true <;> simp [teardown, hterm]

/-- C2: evaluating handle_connection of main_complex.rs at a
successful spawn: for every connection whose spawn succeeds, and
whatever events follow, no registry entry is created — the handler
never inserts the session into the sessions map, so the registry stays
empty, contradicting the claim that every successful spawn registers
the session with current timestamps. -/
theorem registry_never_populated :
    ∀ (w : Bool) (id : String) (events : List WsEvent),
      (handle_connection_complex w (Except.ok id) events).registered = false := by
  intro w id events
  cases w <;> rfl

/-- C3: on a reaper sweep, every registered entry whose elapsed time
since last activity exceeds the staleness threshold is removed from the
registry and its session is torn down via the same teardown path
(teardown of its lifecycle state, which kills the child), while every
entry with recent activity survives the sweep untouched. -/
theorem reaper_sweep_evicts_stale_only
    (now threshold : Nat) (reg : Registry) (i : Nat) (e : RegistryEntry)
    (hmem : (i, e) ∈ reg) :
    (threshold < now - e.last_activity →
      ((i, e) ∉ (cleanup_stale_sessions now threshold reg).1 ∧
        teardown e.life ∈ (cleanup_stale_sessions now threshold reg).2)) ∧
    (now - e.last_activity ≤ threshold →
      (i, e) ∈ (cleanup_stale_sessions now threshold reg).1) := by
  constructor
  · intro hstale
    constructor
    · intro hcontra
      have hdec := (List.mem_filter.mp hcontra).2
      simp only [decide_eq_true_eq] at hdec
      omega
    · exact List.mem_map.mpr
        ⟨(i, e), List.mem_filter.mpr ⟨hmem, by simpa using hstale⟩, rfl⟩
  · intro hfresh
    exact List.mem_filter.mpr ⟨hmem, by simpa using hfresh⟩

/-- Witness for C3: with now 200 and threshold 60, the entry last
active at tick 100 is evicted and torn down while the entry last active
at tick 190 survives the sweep. -/
theorem reaper_sweep_evicts_stale_only_witness :
    ((1, (⟨0, 100, freshLife⟩ : RegistryEntry)) ∉
        (cleanup_stale_sessions 200 60
          [(1, (⟨0, 100, freshLife⟩ : RegistryEntry)),
           (2, (⟨0, 190, freshLife⟩ : RegistryEntry))]).1 ∧
      teardown freshLife ∈
        (cleanup_stale_sessions 200 60
          [(1, (⟨0, 100, freshLife⟩ : RegistryEntry)),
           (2, (⟨0, 190, freshLife⟩ : RegistryEntry))]).2) ∧
    (2, (⟨0, 190, freshLife⟩ : RegistryEntry)) ∈
      (cleanup_stale_sessions 200 60
        [(1, (⟨0, 100, freshLife⟩ : RegistryEntry)),
         (2, (⟨0, 190, freshLife⟩ : RegistryEntry))]).1 :=
  ⟨(reaper_sweep_evicts_stale_only 200 60
      [(1, ⟨0, 100, freshLife⟩), (2, ⟨0, 190, freshLife⟩)] 1 ⟨0, 100, freshLife⟩
      (by decide)).1 (by decide),
   (reaper_sweep_evicts_stale_only 200 60
      [(1, ⟨0, 100, freshLife⟩), (2, ⟨0, 190, freshLife⟩)] 2 ⟨0, 190, freshLife⟩
      (by decide)).2 (by decide)⟩

/-- C4 counterexample: in the relay loop of main.rs a failed resize
propagates with the question-mark operator and ends the handler — on
the concrete stream holding one failing Resize 40 120 event the loop
reports termination, refuting the claim that for every session a resize
failure is non-fatal. -/
theorem resize_failure_fatal_in_main :
    (runLoop mainStep initLoop
      [WsEvent.ctrl (ControlMessage.Resize 40 120) false]).2 = false := by
  decide

/-- C4 amended: in the multi-session variant (main_complex.rs) a failed
resize is logged only — the relay continues exactly as if the event had
not occurred, with state and output unchanged; in the single-session
variant (main.rs) the failure ends the handler and with it the
session. -/
theorem resize_failure_nonfatal_in_complex :
    (∀ (s : LoopState) (es : List WsEvent) (r c : Nat),
      runLoop complexStep s (WsEvent.ctrl (ControlMessage.Resize r c) false :: es)
        = runLoop complexStep s es) ∧
    (∀ (s : LoopState) (r c : Nat),
      (mainStep s (WsEvent.ctrl (ControlMessage.Resize r c) false)).2 = false) :=
  ⟨fun _ _ _ _ => rfl, fun _ _ _ => rfl⟩

/-- C5 counterexample: in the relay loop of main.rs a received Ping
falls to the catch-all arm — on the concrete stream holding one Ping
event the loop sends no frame at all, in particular no Pong, refuting
the claim that every session answers Ping with Pong. -/
theorem ping_ignored_in_main :
    (runLoop mainStep initLoop [WsEvent.ctrl ControlMessage.Ping true]).1.out = []
      ∧ (runLoop mainStep initLoop [WsEvent.ctrl ControlMessage.Ping true]).2 = true := by
  decide

/-- C5 amended: in the multi-session variant every received Ping is
answered with an encoded Pong control message, routed through the
output byte channel and therefore delivered as a binary frame; in the
single-session variant Ping is ignored and nothing is sent. -/
theorem ping_answered_in_complex :
    (∀ (s : LoopState) (b : Bool),
      complexStep s (WsEvent.ctrl ControlMessage.Ping b)
        = ({ s with out := s.out ++ [Frame.binaryControl ControlMessage.Pong] }, true)) ∧
    (∀ (s : LoopState) (b : Bool),
      mainStep s (WsEvent.ctrl ControlMessage.Ping b) = (s, true)) :=
  ⟨fun _ _ => rfl, fun _ _ => rfl⟩

/-- C6: feeding the tracker round-trip samples of 10 ms, 20 ms and
60 ms yields the report min 10 ms, max 60 ms, average 30 ms,
high-latency count 1 under the strict 50 ms threshold (a 50 ms sample
does not count as high latency), and with zero samples recorded the
report is a no-op rather than an error. -/
theorem latency_report_values :
    ((((LatencyTracker.new.record 10000000).record 20000000).record 60000000).report
        = some { avg := 30, min := 10, max := 60, high := 1 }) ∧
    LatencyTracker.new.report = none ∧
    (LatencyTracker.new.record 50000000).high_latency_count = 0 := by
  refine ⟨by decide, rfl, by decide⟩


/-- C7 counterexample: the sidecar LatencyTracker does not evict oldest
first — after recording 1000 samples of 10 ms from a fresh tracker,
recording a 20 ms sample leaves the history unchanged: the new sample
is not appended and the oldest sample is not removed, refuting the
claim that every recorded sample is appended with oldest-first
eviction at capacity. -/
theorem tracker_full_drops_new_sample :
    ((((List.replicate 1000 10000000).foldl LatencyTracker.record
          LatencyTracker.new).record 20000000).measurements
        = List.replicate 1000 10000000) ∧
    20000000 ∉ (((List.replicate 1000 10000000).foldl LatencyTracker.record
          LatencyTracker.new).record 20000000).measurements := by
  have hfull := replicate_foldl_full
  have hcap : 1000 ≤ ((List.replicate 1000 10000000).foldl LatencyTracker.record
      LatencyTracker.new).measurements.length := by
    rw [hfull, List.length_replicate]
  have heq := record_at_capacity _ 20000000 hcap
  refine ⟨by rw [heq, hfull], ?_⟩
  rw [heq, hfull]
  intro hmem
  have hval := (List.mem_replicate.mp hmem).2
  norm_num at hval

/-- C7 amended: the client PTYBridge latency history is the bounded
buffer of the claim with capacity 100 — below capacity a sample is
appended, at capacity the oldest sample is evicted first, and the
history always holds the 100 most recent samples of the stream; the
sidecar LatencyTracker instead saturates at its capacity of 1000: once
full, recording retains the history unchanged and the new sample is
dropped. -/
theorem latency_history_bounds :
    (∀ (h : List ℚ) (x : ℚ), h.length ≤ 100 →
      pushLatency h x = if h.length < 100 then h ++ [x] else h.drop 1 ++ [x]) ∧
    (∀ xs : List ℚ, xs.foldl pushLatency [] = xs.drop (xs.length - 100)) ∧
    (∀ (t : LatencyTracker) (d : Nat), 1000 ≤ t.measurements.length →
      (t.record d).measurements = t.measurements) := by
  refine ⟨fun h x hle => ?_, fun xs => ?_, fun t d hcap => record_at_capacity t d hcap⟩
  · rw [pushLatency_drop h x hle]
    by_cases hc : h.length < 100
    · rw [if_pos hc]
      have h0 : (h ++ [x]).length - 100 = 0 := by simp; omega
      rw [h0, List.drop_zero]
    · rw [if_neg hc]
      have h1 : (h ++ [x]).length - 100 = 1 := by simp; omega
      rw [h1]
      have hne : h.length = 100 := by omega
      rcases h with _ | ⟨a, h⟩
      · simp at hne
      · simp
  · have := foldl_push_suffix xs [] (by simp)
    simpa using this

/-- Witness for C7 amended: pushing onto an empty history appends;
pushing 101 identical samples onto the empty history keeps the 100 most
recent; a tracker holding 1000 samples keeps its history unchanged on
record. -/
theorem latency_history_bounds_witness :
    (pushLatency [] 5 = if ([] : List ℚ).length < 100 then ([] : List ℚ) ++ [5]
        else ([] : List ℚ).drop 1 ++ [5]) ∧
    ((List.replicate 101 (7 : ℚ)).foldl pushLatency []
        = (List.replicate 101 (7 : ℚ)).drop ((List.replicate 101 (7 : ℚ)).length - 100)) ∧
    (({ measurements := List.replicate 1000 9, high_latency_count := 0 } :
        LatencyTracker).record 4).measurements = List.replicate 1000 9 :=
  ⟨latency_history_bounds.1 [] 5 (by simp),
   latency_history_bounds.2.1 (List.replicate 101 (7 : ℚ)),
   latency_history_bounds.2.2 { measurements := List.replicate 1000 9, high_latency_count := 0 } 4
     (by rw [List.length_replicate])⟩

/-- C8 counterexample: measure_latency records its sample when the ping
send completes, without waiting for the pong — with a send that took
1 ms and a true round trip of 30 ms, the recorded sample is 1 ms, not
the 30 ms round-trip elapsed time the claim describes. -/
theorem measure_latency_not_round_trip :
    (measure_latency [] 1).2 = 1 ∧
    (measure_latency [] 1).2 ≠ claimedRoundTripSample 1 30 := by
  refine ⟨rfl, ?_⟩
  intro hcontra
  have : (1 : ℚ) = 30 := hcontra
  norm_num at this

/-- C8 amended: the sample recorded by measure_latency is exactly the
elapsed send duration, pushed onto the history, for every history and
send duration — it equals the round-trip sample of the claim only when
the round trip happens to equal the send duration; separately, the Pong
arm of handle_message records the current unix time minus the ping
datum, with no session-id matching in its inputs. -/
theorem latency_sample_is_send_elapsed :
    ∀ (h : List ℚ) (sendMs roundTripMs : ℚ),
      (measure_latency h sendMs).2 = sendMs ∧
      (measure_latency h sendMs).1 = pushLatency h sendMs ∧
      ((measure_latency h sendMs).2 = claimedRoundTripSample sendMs roundTripMs
        ↔ sendMs = roundTripMs) :=
  fun _ _ _ => ⟨rfl, rfl, Iff.rfl⟩

/-- C9 counterexample: in main.rs a spawn failure on a writable
connection sends nothing at all — no Error control frame reaches the
client before the connection closes, refuting the claim that every
spawn failure on a writable connection is reported with an Error
frame. -/
theorem spawn_failure_silent_in_main :
    (handle_connection_main true (Except.error "spawn failed") []).frames = [] :=
  rfl

/-- C9 amended: on spawn failure the multi-session variant
(main_complex.rs) sends the Error control frame as a text frame when
the socket is writable and nothing otherwise, then closes, and creates
no registry entry; the single-session variant (main.rs) closes the
connection without sending any Error frame and likewise creates no
registry entry. -/
theorem spawn_failure_error_frame_in_complex :
    ∀ (e : String) (events : List WsEvent),
      (handle_connection_complex true (Except.error e) events).frames
          = [Frame.text (ControlMessage.Error ("Failed to create PTY: " ++ e))] ∧
      (handle_connection_complex true (Except.error e) events).registered = false ∧
      (handle_connection_complex false (Except.error e) events).frames = [] ∧
      (handle_connection_main true (Except.error e) events).frames = [] ∧
      (handle_connection_main true (Except.error e) events).registered = false :=
  fun _ _ => ⟨rfl, rfl, rfl, rfl, rfl⟩

/-- C10: get_average_latency returns 0 rather than an error on an
empty history, and on a non-empty history it returns the arithmetic
mean of the retained samples: the returned value times the sample count
equals the sample sum. -/
theorem get_average_latency_mean :
    get_average_latency [] = 0 ∧
    ∀ h : List ℚ, h ≠ [] →
      get_average_latency h * (h.length : ℚ) = h.sum := by
  refine ⟨rfl, fun h hne => ?_⟩
  have hlen : ((h.length : ℚ)) ≠ 0 :=
    Nat.cast_ne_zero.mpr (List.length_pos.mpr hne).ne'
  unfold get_average_latency
  rw [if_neg (by simpa [List.isEmpty_iff] using hne)]
  exact div_mul_cancel₀ _ hlen

/-- Witness for C10: the history 10, 20, 60 is non-empty and its
reported average times its length equals its sum. -/
theorem get_average_latency_mean_witness :
    get_average_latency ([] : List ℚ) = 0 ∧
    get_average_latency [(10 : ℚ), 20, 60] * (([(10 : ℚ), 20, 60]).length : ℚ)
      = ([(10 : ℚ), 20, 60]).sum :=
  ⟨get_average_latency_mean.1,
   get_average_latency_mean.2 [(10 : ℚ), 20, 60] (by simp)⟩
